import Mathlib

/-!
Verification of the coursera-xapi-dashboard aggregation engine.

This file gives a shallow embedding, in Lean 4, of the data-processing core of
the repository: `CourseDataProcessor` and `DataAggregator`
(src/utils/dataAggregator.js, src/utils/dataProcessor.js) and `DataValidator`
(src/utils/dataValidator.js), and proves or refutes the specified properties
of those functions.

Modelling conventions:
- JS numbers are modelled as exact rationals; the special values NaN and
  plus/minus Infinity, which the source can produce (division by zero,
  Math.max of an empty spread), are modelled by the `JSNum` type.
- Timestamps (`new Date(stmt.timestamp)`) are epoch milliseconds, type ℤ.
  The ISO calendar date `toISOString().split('T')[0]` of a timestamp is
  modelled by its floor-division day number: two timestamps get equal date
  strings iff they have equal day numbers, and the source only compares,
  deduplicates and subtracts such dates.
- `Array.prototype.sort` with a comparator is a stable sort in JS; it is
  modelled by a stable insertion sort.
- The source reads the ambient clock (`new Date()`) inside
  `calculateLearningStreak` and `assessDataQuality`; the embedding makes that
  read an explicit `now`/`todayDay` argument so that the dependence on the
  clock can be stated and examined.
-/

/-- JS Math.round on an exact rational: round half away from zero is
Math.round semantics for positive halves; JS rounds half toward plus
infinity, which is floor of q + 1/2. -/
def jsRound (q : ℚ) : ℤ := ⌊q + 1/2⌋

/-- A JS number: an exact rational, or one of the non-finite values NaN,
Infinity, -Infinity that the source can produce. -/
inductive JSNum where
  | num (q : ℚ)
  | nan
  | posinf
  | neginf
deriving DecidableEq

/-- JS division on `JSNum`: 0/0 is NaN, x/0 is signed Infinity, finite
division is exact. -/
def JSNum.div : JSNum → JSNum → JSNum
  | .num a, .num b =>
      if b = 0 then (if a = 0 then .nan else if a > 0 then .posinf else .neginf)
      else .num (a / b)
  | .nan, _ => .nan
  | _, .nan => .nan
  | .posinf, .posinf => .nan
  | .posinf, .neginf => .nan
  | .neginf, .posinf => .nan
  | .neginf, .neginf => .nan
  | .posinf, .num b => if b ≥ 0 then .posinf else .neginf
  | .neginf, .num b => if b ≥ 0 then .neginf else .posinf
  | .num _, .posinf => .num 0
  | .num _, .neginf => .num 0

/-- JS multiplication on `JSNum`: NaN is absorbing, Infinity times zero is
NaN, otherwise signs multiply. -/
def JSNum.mul : JSNum → JSNum → JSNum
  | .num a, .num b => .num (a * b)
  | .nan, _ => .nan
  | _, .nan => .nan
  | .posinf, .posinf => .posinf
  | .posinf, .neginf => .neginf
  | .neginf, .posinf => .neginf
  | .neginf, .neginf => .posinf
  | .posinf, .num b => if b = 0 then .nan else if b > 0 then .posinf else .neginf
  | .num a, .posinf => if a = 0 then .nan else if a > 0 then .posinf else .neginf
  | .neginf, .num b => if b = 0 then .nan else if b > 0 then .neginf else .posinf
  | .num a, .neginf => if a = 0 then .nan else if a > 0 then .neginf else .posinf

/-- JS Math.round lifted to `JSNum`: Math.round(NaN) is NaN and
Math.round(plus or minus Infinity) is itself. -/
def JSNum.round : JSNum → JSNum
  | .num q => .num ((jsRound q : ℤ) : ℚ)
  | .nan => .nan
  | .posinf => .posinf
  | .neginf => .neginf

/-- Maximum of a list of integers; only applied to nonempty lists by the
embedding (the source spreads a nonempty array into Math.max). -/
def listMaxZ : List ℤ → ℤ
  | [] => 0
  | x :: xs => xs.foldl max x

/-- Minimum of a list of integers; only applied to nonempty lists. -/
def listMinZ : List ℤ → ℤ
  | [] => 0
  | x :: xs => xs.foldl min x

/-- JS `Math.max(...xs)` over integer values: the empty spread gives
-Infinity. -/
def listMaxJS : List ℤ → JSNum
  | [] => .neginf
  | x :: xs => .num ((xs.foldl max x : ℤ) : ℚ)

/-- JS `Math.min(...xs)` over integer values: the empty spread gives
Infinity. -/
def listMinJS : List ℤ → JSNum
  | [] => .posinf
  | x :: xs => .num ((xs.foldl min x : ℤ) : ℚ)

/-- Insert `x` after every element `y` with `le y x`; building block of the
stable sort. -/
def insertLe {α : Type} (le : α → α → Bool) (x : α) : List α → List α
  | [] => [x]
  | y :: ys => if le y x then y :: insertLe le x ys else x :: y :: ys

/-- Stable insertion sort, modelling `Array.prototype.sort` with a
comparator (stable per the ECMAScript specification). `le a b` holds when `a`
may be placed before `b`. -/
def stableSort {α : Type} (le : α → α → Bool) (l : List α) : List α :=
  l.foldl (fun acc x => insertLe le x acc) []

/-- Milliseconds per day. -/
def msPerDay : ℤ := 86400000

/-- Calendar-day number of an epoch-millisecond timestamp: models the date
string `new Date(ts).toISOString().split('T')[0]`, which the source only
compares for equality and order and subtracts (as re-parsed midnight
instants, whose difference in ms is an exact whole number of days). -/
def dayOf (ts : ℤ) : ℤ := ts.fdiv msPerDay

/-- `x || d` on an optional string field: JS falls back on the default when
the field is absent or the empty string (both falsy). -/
def jsOr (o : Option String) (d : String) : String :=
  match o with
  | some s => if s = "" then d else s
  | none => d

/-- result.score of a statement. -/
structure ScoreVal where
  scaled : ℚ
  raw : Option ℚ := none
  maxv : Option ℚ := none
deriving DecidableEq

/-- result of a statement. -/
structure ResultVal where
  score : Option ScoreVal := none
  success : Option Bool := none
  completion : Option Bool := none
  duration : Option String := none
deriving DecidableEq

/-- An xAPI statement, restricted to the fields the aggregation engine
reads. `objectName` is `object.definition.name['en-US']`, `activityType` is
`object.definition.type`, `timestamp` is the instant in epoch ms. -/
structure Statement where
  actorName : String := ""
  verbId : String
  objectId : String
  objectName : Option String := none
  activityType : Option String := none
  result : Option ResultVal := none
  timestamp : ℤ
deriving DecidableEq

/-- The completion verb URI tested by the source. -/
def completedVerb : String := "http://adlnet.gov/expapi/verbs/completed"

/-- The module activity-type URI. -/
def moduleType : String := "http://coursera.org/xapi/activity-types/module"

/-- The video activity-type URI. -/
def videoType : String := "http://coursera.org/xapi/activity-types/video"

/-- Whether a statement is a completion event. -/
def isCompletion (s : Statement) : Bool := s.verbId == completedVerb

/-- A moduleCompletions entry of calculateProgress. -/
structure ModuleCompletion where
  id : String
  name : String
  completedAt : ℤ
  actor : String
deriving DecidableEq

/-- Result record of `CourseDataProcessor.calculateProgress`. -/
structure ProgressSummary where
  completed : ℕ
  total : ℕ
  percentage : ℤ
  remaining : ℤ
  moduleCompletions : List ModuleCompletion
  lastActivity : Option ℤ
deriving DecidableEq

/-- The set `totalActivities` of calculateProgress: every distinct object
id. -/
def totalActivitySet (stmts : List Statement) : Finset String :=
  (stmts.map (fun s => s.objectId)).toFinset

/-- The set `completedActivities`: distinct object ids of completion
events. -/
def completedActivitySet (stmts : List Statement) : Finset String :=
  ((stmts.filter isCompletion).map (fun s => s.objectId)).toFinset

/-- moduleCompletions entries, in statement order (before the final sort). -/
def moduleCompletionsOf (stmts : List Statement) : List ModuleCompletion :=
  stmts.filterMap (fun s =>
    if isCompletion s ∧ s.activityType = some moduleType then
      some { id := s.objectId, name := jsOr s.objectName ("Unknown Module"),
             completedAt := s.timestamp, actor := s.actorName }
    else none)

/-- `CourseDataProcessor.calculateProgress` (dataProcessor.js): unique
activity counting, completion counting, percentage, module completions
sorted newest first, and lastActivity from the first statement in input
order. -/
def calculateProgress (stmts : List Statement) : ProgressSummary :=
  let completed := (completedActivitySet stmts).card
  let total := (totalActivitySet stmts).card
  { completed := completed
    total := total
    percentage := if total > 0 then jsRound ((completed : ℚ) / (total : ℚ) * 100) else 0
    remaining := (total : ℤ) - (completed : ℤ)
    moduleCompletions :=
      stableSort (fun a b => decide (b.completedAt ≤ a.completedAt)) (moduleCompletionsOf stmts)
    lastActivity := stmts.head?.map (fun s => s.timestamp) }

/-- One element of the `scores` array built inside
`CourseDataProcessor.aggregateScores` from a score-bearing statement:
percentage score rounded from the scaled score, success flag (JS truthiness
of `result.success`), and the statement timestamp. -/
structure RawScore where
  activity : String
  activityId : String
  score : ℤ
  rawScore : Option ℚ
  maxScore : Option ℚ
  success : Bool
  timestamp : ℤ
deriving DecidableEq

/-- The canonical per-activity record produced by aggregateScores: the
latest raw entry of the activity, annotated with the attempt count, best
score and first-attempt time of its group. -/
structure CanonicalScore where
  entry : RawScore
  attempts : ℕ
  bestScore : ℤ
  firstAttempt : ℤ
deriving DecidableEq

/-- Mapping of a score-bearing statement into the `scores` array of
aggregateScores. -/
def toRawScore (s : Statement) (r : ResultVal) (sc : ScoreVal) : RawScore :=
  { activity := jsOr s.objectName ("Unknown Assessment")
    activityId := s.objectId
    score := jsRound (sc.scaled * 100)
    rawScore := sc.raw
    maxScore := sc.maxv
    success := r.success == some true
    timestamp := s.timestamp }

/-- The filter and map at the top of aggregateScores: keep exactly the
statements carrying `result.score`. -/
def scoredEntries (stmts : List Statement) : List RawScore :=
  stmts.filterMap (fun s =>
    match s.result with
    | some r =>
      match r.score with
      | some sc => some (toRawScore s r sc)
      | none => none
    | none => none)

/-- Append a key to the accumulator unless already present: JS object keys
appear in first-insertion order. -/
def pushNew (acc : List String) (k : String) : List String :=
  if k ∈ acc then acc else acc ++ [k]

/-- The keys of the `activityGroups` object of aggregateScores, in first
occurrence order. -/
def groupKeys (l : List RawScore) : List String :=
  l.foldl (fun acc r => pushNew acc r.activityId) []

/-- `Object.values(activityGroups)`: for each key in first-occurrence order,
the group of entries with that activity id, in original order. -/
def groupsOf (l : List RawScore) : List (List RawScore) :=
  (groupKeys l).map (fun k => l.filter (fun r => r.activityId == k))

/-- Head of the stable descending-by-timestamp sort of a group: the first
entry holding the maximal timestamp. Only applied to nonempty groups; on []
it returns a junk record. -/
def latestOf : List RawScore → RawScore
  | [] => { activity := "", activityId := "", score := 0, rawScore := none,
            maxScore := none, success := false, timestamp := 0 }
  | x :: xs => xs.foldl (fun best r => if r.timestamp > best.timestamp then r else best) x

/-- Annotate the latest entry of a group with attempts, bestScore and
firstAttempt, as the group-processing map of aggregateScores does. -/
def canonicalOf (g : List RawScore) : CanonicalScore :=
  { entry := latestOf g
    attempts := g.length
    bestScore := listMaxZ (g.map (fun r => r.score))
    firstAttempt := listMinZ (g.map (fun r => r.timestamp)) }

/-- `processedScores` of aggregateScores: one canonical record per distinct
scored activity. -/
def processedScores (stmts : List Statement) : List CanonicalScore :=
  (groupsOf (scoredEntries stmts)).map canonicalOf

/-- Score trend classification. -/
inductive Trend where
  | improving
  | declining
  | stable
deriving DecidableEq

/-- `CourseDataProcessor.calculateScoreTrend`: with fewer than two canonical
records the trend is stable; otherwise sort by time ascending, split at the
floor midpoint, and compare the mean scores of the halves against a 5-point
margin. -/
def calculateScoreTrend (scores : List CanonicalScore) : Trend :=
  if scores.length < 2 then .stable
  else
    let sorted := stableSort (fun a b => decide (a.entry.timestamp ≤ b.entry.timestamp)) scores
    let mid := sorted.length / 2
    let firstHalf := sorted.take mid
    let secondHalf := sorted.drop mid
    let firstAvg : ℚ := ((firstHalf.map (fun s => (s.entry.score : ℚ))).sum) / (firstHalf.length : ℚ)
    let secondAvg : ℚ := ((secondHalf.map (fun s => (s.entry.score : ℚ))).sum) / (secondHalf.length : ℚ)
    let difference := secondAvg - firstAvg
    if difference > 5 then .improving
    else if difference < -5 then .declining
    else .stable

/-- The letter-grade buckets of calculateScoreDistribution; gradeA..gradeF
model the object keys A (90-100) through F (0-59). -/
structure ScoreDist where
  gradeA : ℕ
  gradeB : ℕ
  gradeC : ℕ
  gradeD : ℕ
  gradeF : ℕ
deriving DecidableEq

/-- The bucketing step of calculateScoreDistribution: increment the first
matching threshold bucket 90/80/70/60, else F. -/
def distStep (ranges : ScoreDist) (score : ℤ) : ScoreDist :=
  if score ≥ 90 then { ranges with gradeA := ranges.gradeA + 1 }
  else if score ≥ 80 then { ranges with gradeB := ranges.gradeB + 1 }
  else if score ≥ 70 then { ranges with gradeC := ranges.gradeC + 1 }
  else if score ≥ 60 then { ranges with gradeD := ranges.gradeD + 1 }
  else { ranges with gradeF := ranges.gradeF + 1 }

/-- `CourseDataProcessor.calculateScoreDistribution`: fold the bucketing
step over the score values starting from all-zero counts. -/
def calculateScoreDistribution (scoreValues : List ℤ) : ScoreDist :=
  scoreValues.foldl distStep { gradeA := 0, gradeB := 0, gradeC := 0, gradeD := 0, gradeF := 0 }

/-- Result record of `CourseDataProcessor.aggregateScores`. The
early-return object for an empty input array carries no `distribution`
property, modelled by `none`. -/
structure ScoreSummary where
  scores : List CanonicalScore
  average : JSNum
  highest : JSNum
  lowest : JSNum
  totalAttempts : ℕ
  passRate : JSNum
  trend : Trend
  distribution : Option ScoreDist
deriving DecidableEq

/-- `CourseDataProcessor.aggregateScores` (dataProcessor.js): early return of
an all-zero summary for an empty input array; otherwise filter to
score-bearing statements, group by activity, keep the latest record per
group, and compute average / extremes / pass rate / trend / distribution
over the canonical records. The divisions are JS divisions: with a nonempty
input whose filter leaves no score-bearing entry they divide by zero. -/
def aggregateScores (scoreStatements : List Statement) : ScoreSummary :=
  if scoreStatements.isEmpty then
    { scores := [], average := .num 0, highest := .num 0, lowest := .num 0,
      totalAttempts := 0, passRate := .num 0, trend := .stable, distribution := none }
  else
    let entries := scoredEntries scoreStatements
    let canon := processedScores scoreStatements
    let scoreValues : List ℤ := canon.map (fun s => s.entry.score)
    let average := JSNum.div (.num ((scoreValues.map (fun z => (z : ℚ))).sum)) (.num (scoreValues.length : ℚ))
    let passCount := (canon.filter (fun s => s.entry.success)).length
    let passRate := JSNum.mul (JSNum.div (.num (passCount : ℚ)) (.num (canon.length : ℚ))) (.num 100)
    { scores := stableSort (fun a b => decide (b.entry.timestamp ≤ a.entry.timestamp)) canon
      average := JSNum.round average
      highest := listMaxJS scoreValues
      lowest := listMinJS scoreValues
      totalAttempts := entries.length
      passRate := JSNum.round passRate
      trend := calculateScoreTrend canon
      distribution := some (calculateScoreDistribution scoreValues) }

/-- Position just after the leftmost occurrence of the substring PT, or
`none` when the string holds no PT: the regex of parseDuration begins with
the literal PT and everything after it is optional, so the regex matches iff
PT occurs, and it matches at the leftmost occurrence. -/
def afterPT : List Char → Option (List Char)
  | [] => none
  | [_] => none
  | c1 :: c2 :: rest =>
      if c1 = 'P' ∧ c2 = 'T' then some rest else afterPT (c2 :: rest)

/-- Numeric value of a digit run (parseInt on a digits-only string). -/
def digitsToNat (ds : List Char) : ℕ :=
  ds.foldl (fun n c => 10 * n + (c.toNat - ('0').toNat)) 0

/-- One optional regex group `(?:(\d+)X)?` at the current position: a
nonempty maximal digit run immediately followed by the designator consumes
both and yields the value; otherwise the group is skipped and the position
is unchanged. (A shorter digit run can never succeed where the maximal one
fails, since the character after a shorter run is a digit, not the
designator, so maximal-run-plus-check is exactly the regex semantics.) -/
def matchGroup (desig : Char) (l : List Char) : Option ℕ × List Char :=
  let ds := l.takeWhile Char.isDigit
  let rest := l.dropWhile Char.isDigit
  if ds.isEmpty then (none, l)
  else
    match rest with
    | c :: rest2 => if c = desig then (some (digitsToNat ds), rest2) else (none, l)
    | [] => (none, l)

/-- `CourseDataProcessor.parseDuration` (dataProcessor.js): match the
unanchored regex PT with optional H, M, S groups; a string without PT
returns 0; missing groups count as 0 via `parseInt(...) || 0`. -/
def parseDuration (duration : String) : ℕ :=
  match afterPT duration.data with
  | none => 0
  | some rest =>
      let h := matchGroup ('H') rest
      let m := matchGroup ('M') h.2
      let s := matchGroup ('S') m.2
      (h.1.getD 0) * 3600 + (m.1.getD 0) * 60 + (s.1.getD 0)

/-- A study session of `calculateStudySessions`; `endTime` models the
source field `end`, `duration` is `(end - start) / 1000` seconds as a JS
number. -/
structure Session where
  start : ℤ
  endTime : ℤ
  activities : ℕ
  duration : ℚ
deriving DecidableEq

/-- The session loop of calculateStudySessions over the remaining
timestamps: extend the current session while the gap from its end is at most
3600000 ms, otherwise close it and start a new one; the final open session
is closed and appended after the loop. -/
def sessionsAux : Session → List ℤ → List Session
  | cur, [] => [{ cur with duration := ((cur.endTime - cur.start : ℤ) : ℚ) / 1000 }]
  | cur, t :: rest =>
      if t - cur.endTime ≤ 3600000 then
        sessionsAux { cur with endTime := t, activities := cur.activities + 1 } rest
      else
        { cur with duration := ((cur.endTime - cur.start : ℤ) : ℚ) / 1000 } ::
          sessionsAux { start := t, endTime := t, activities := 1, duration := 0 } rest

/-- `CourseDataProcessor.calculateStudySessions` (dataProcessor.js): sort
the statements by timestamp ascending and cluster them into sessions with
a one-hour gap threshold. -/
def calculateStudySessions (stmts : List Statement) : List Session :=
  match (stableSort (fun a b => decide (a.timestamp ≤ b.timestamp)) stmts).map (fun s => s.timestamp) with
  | [] => []
  | t :: rest => sessionsAux { start := t, endTime := t, activities := 1, duration := 0 } rest

/-- Result of `calculateLearningStreak`. -/
structure StreakResult where
  current : ℕ
  longest : ℕ
  totalDays : ℕ
deriving DecidableEq

/-- Append an integer key unless present (dedup in first-occurrence order,
as `new Set` iteration). -/
def pushNewInt (acc : List ℤ) (k : ℤ) : List ℤ :=
  if k ∈ acc then acc else acc ++ [k]

/-- `activityDates` of calculateLearningStreak: the distinct calendar-day
numbers of the statements, sorted ascending (lexicographic sort of ISO date
strings is chronological). -/
def activityDays (stmts : List Statement) : List ℤ :=
  stableSort (fun a b => decide (a ≤ b))
    ((stmts.map (fun s => dayOf s.timestamp)).foldl pushNewInt [])

/-- The longest-streak loop: `streakCount` grows on a one-day step and
resets otherwise; the final `Math.max` is applied after the loop. `prev` is
the previous date, `longest` and `count` the loop accumulators. -/
def longestAux : ℤ → ℕ → ℕ → List ℤ → ℕ
  | _, longest, count, [] => max longest count
  | prev, longest, count, d :: rest =>
      if d - prev = 1 then longestAux d longest (count + 1) rest
      else longestAux d (max longest count) 1 rest

/-- Longest run of consecutive days in an ascending list of distinct day
numbers, exactly as the source loop computes it (1 for a singleton). -/
def longestRun : List ℤ → ℕ
  | [] => 0
  | d :: rest => longestAux d 0 1 rest

/-- The backward walk of the current-streak branch: count one-day steps
from the last activity day backward, stopping at the first larger gap. -/
def backCount : ℤ → List ℤ → ℕ
  | _, [] => 0
  | lastd, prev :: rest => if lastd - prev = 1 then 1 + backCount prev rest else 0

/-- The current-streak computation: zero unless the last activity day is at
most one day before `todayDay`; otherwise the backward consecutive count
plus one for the last activity day itself. -/
def currentStreakOf (days : List ℤ) (todayDay : ℤ) : ℕ :=
  match days.reverse with
  | [] => 0
  | lastd :: revRest => if todayDay - lastd ≤ 1 then backCount lastd revRest + 1 else 0

/-- `CourseDataProcessor.calculateLearningStreak` (dataProcessor.js). The
source computes `today` from the ambient clock (`new Date()`); it is the
explicit argument `todayDay` here (as a calendar-day number). -/
def calculateLearningStreak (stmts : List Statement) (todayDay : ℤ) : StreakResult :=
  if stmts.isEmpty then { current := 0, longest := 0, totalDays := 0 }
  else
    let days := activityDays stmts
    { current := currentStreakOf days todayDay
      longest := longestRun days
      totalDays := days.length }

/-- Result record of `DataAggregator.assessDataQuality`. -/
structure DataQuality where
  score : ℤ
  issues : List String
  completeness : ℚ
  freshness : ℚ
deriving DecidableEq

/-- The freshness branch of assessDataQuality, with the ambient `new
Date()` made explicit as `now` (epoch ms): full marks unless the latest
activity is more than 7 (fractional) days old, then a linear 10-points-per-
day penalty floored at 0; 0 with an issue when there are no statements. -/
def freshnessOf (stmts : List Statement) (now : ℤ) : ℚ × List String :=
  if stmts.isEmpty then (0, ["No activity data available"])
  else
    let latestActivity := listMaxZ (stmts.map (fun s => s.timestamp))
    let daysSinceLatest : ℚ := ((now - latestActivity : ℤ) : ℚ) / 86400000
    if daysSinceLatest > 7 then
      (max 0 (100 - (daysSinceLatest - 7) * 10), ["Data is more than a week old"])
    else (100, [])

/-- The completeness branch of assessDataQuality: the percentage of
statements carrying a result replaces the initial 100 only when it is below
80. -/
def completenessOf (stmts : List Statement) : ℚ × List String :=
  let resultCompleteness : ℚ :=
    if stmts.length > 0 then
      (((stmts.filter (fun s => s.result.isSome)).length : ℚ) / (stmts.length : ℚ)) * 100
    else 0
  if resultCompleteness < 80 then (resultCompleteness, ["Some activities missing result data"])
  else (100, [])

/-- `DataAggregator.assessDataQuality` (dataAggregator.js), with the
ambient clock passed explicitly. -/
def assessDataQuality (stmts : List Statement) (now : ℤ) : DataQuality :=
  let fresh := freshnessOf stmts now
  let compl := completenessOf stmts
  { score := jsRound ((compl.1 + fresh.1) / 2)
    issues := fresh.2 ++ compl.2
    completeness := compl.1
    freshness := fresh.1 }

/-- Anomaly severity. -/
inductive Severity where
  | low
  | medium
  | high
deriving DecidableEq

/-- An anomaly record pushed by detectAnomalies. -/
structure Anomaly where
  type : String
  message : String
  severity : Severity
deriving DecidableEq

/-- A score record as read by detectAnomalies (`data.scores.scores[i].score`). -/
structure ScoreCarrier where
  score : ℤ
deriving DecidableEq

/-- The `data.scores` object as read by detectAnomalies. -/
structure ScoresField where
  scores : List ScoreCarrier
deriving DecidableEq

/-- A timeline day as read by detectAnomalies (`totalActivities`). -/
structure TimelineDay where
  totalActivities : ℕ
deriving DecidableEq

/-- The fields of the dashboard summary that `DataValidator.detectAnomalies`
reads; absent sections are `none` (the source tests them for truthiness). -/
structure AnomalyData where
  scores : Option ScoresField
  timeline : Option (List TimelineDay)

/-- Risk level returned by calculateRiskLevel. -/
inductive RiskLevel where
  | none
  | low
  | medium
  | high
deriving DecidableEq

/-- Result of detectAnomalies. -/
structure AnomalyReport where
  hasAnomalies : Bool
  anomalies : List Anomaly
  riskLevel : RiskLevel
deriving DecidableEq

/-- The suspicious-scores anomaly (medium severity). -/
def suspiciousAnomaly : Anomaly :=
  { type := "suspicious_scores"
    message := "All scores are perfect (100%) - this may indicate data issues"
    severity := .medium }

/-- The large-improvement anomaly (low severity). -/
def improvementAnomaly : Anomaly :=
  { type := "large_improvement"
    message := "Score improved by more than 50% - verify data accuracy"
    severity := .low }

/-- The activity-spike anomaly (low severity). -/
def spikeAnomaly : Anomaly :=
  { type := "activity_spike"
    message := "Unusually high activity day"
    severity := .low }

/-- The score-pattern rules of detectAnomalies: the all-perfect rule fires
only with strictly more than 5 scores, and the improvement rule compares
the spread of the ascending-sorted scores (its last minus first element,
i.e. max minus min) against 50. -/
def scoreAnomaliesOf (data : AnomalyData) : List Anomaly :=
  match data.scores with
  | Option.none => []
  | Option.some sf =>
      let scores : List ℤ := sf.scores.map (fun s => s.score)
      (if scores.length > 5 ∧ scores.all (fun s => s == 100) then [suspiciousAnomaly] else []) ++
      (if scores.length > 1 ∧ listMaxZ scores - listMinZ scores > 50 then [improvementAnomaly] else [])

/-- The activity-pattern rule of detectAnomalies. The source compares
`maxActivities > avgActivities * 5` with JS numbers; over an empty timeline
the average is NaN and the comparison is false, modelled by the
nonemptiness guard; over a nonempty timeline the comparison is modelled
exactly over ℚ. -/
def activityAnomaliesOf (data : AnomalyData) : List Anomaly :=
  match data.timeline with
  | Option.none => []
  | Option.some tl =>
      let activities : List ℕ := tl.map (fun d => d.totalActivities)
      let maxActivities : ℚ := ((listMaxZ (activities.map (fun n => (n : ℤ)))) : ℚ)
      let avgActivities : ℚ := ((activities.map (fun n => (n : ℚ))).sum) / (activities.length : ℚ)
      if ¬ tl.isEmpty ∧ maxActivities > avgActivities * 5 then [spikeAnomaly] else []

/-- `DataValidator.calculateRiskLevel` (dataValidator.js): high with any
high-severity anomaly or more than one medium; medium with exactly one
medium; low with only low-severity anomalies; none with no anomaly. -/
def calculateRiskLevel (anomalies : List Anomaly) : RiskLevel :=
  if anomalies.isEmpty then .none
  else
    let highCount := (anomalies.filter (fun a => a.severity == Severity.high)).length
    let mediumCount := (anomalies.filter (fun a => a.severity == Severity.medium)).length
    if highCount > 0 then .high
    else if mediumCount > 1 then .high
    else if mediumCount > 0 then .medium
    else .low

/-- `DataValidator.detectAnomalies` (dataValidator.js): the score rules then
the activity rule, in push order, plus the derived risk level. -/
def detectAnomalies (data : AnomalyData) : AnomalyReport :=
  let anomalies := scoreAnomaliesOf data ++ activityAnomaliesOf data
  { hasAnomalies := anomalies.length > 0
    anomalies := anomalies
    riskLevel := calculateRiskLevel anomalies }

/-- Total of the five distribution buckets. -/
def distSum (d : ScoreDist) : ℕ :=
  d.gradeA + d.gradeB + d.gradeC + d.gradeD + d.gradeF

/-- Total of the buckets of an optional distribution (0 when absent). -/
def distSumOpt : Option ScoreDist → ℕ
  | Option.none => 0
  | Option.some d => distSum d

/-- Modelled from the spec (claim side, for comparison with the source):
the percentage of statements carrying a result, the quantity the spec
says `completeness` equals. -/
def specResultCompleteness (stmts : List Statement) : ℚ :=
  if stmts.length > 0 then
    (((stmts.filter (fun s => s.result.isSome)).length : ℚ) / (stmts.length : ℚ)) * 100
  else 0

/-- Modelled from the spec (claim side): freshness is 100 minus 10 points
per (fractional) day beyond 7 days since the latest activity, floored at 0,
and 0 outright with no statements. -/
def specFreshness (stmts : List Statement) (now : ℤ) : ℚ :=
  if stmts.isEmpty then 0
  else
    let d : ℚ := ((now - listMaxZ (stmts.map (fun s => s.timestamp)) : ℤ) : ℚ) / 86400000
    if d > 7 then max 0 (100 - (d - 7) * 10) else 100

/-- A plain (score-free) event statement used by the concrete scenarios. -/
def mkEvent (v o : String) (ts : ℤ) : Statement :=
  { verbId := v, objectId := o, timestamp := ts }

/-- A score-bearing statement (scaled score, success true) used by the
concrete scenarios. -/
def mkScored (o : String) (sc : ℚ) (ts : ℤ) : Statement :=
  { verbId := "http://adlnet.gov/expapi/verbs/scored", objectId := o, timestamp := ts,
    result := some { score := some { scaled := sc }, success := some true } }

/-- The experienced verb URI, used by score-free scenario statements. -/
def experiencedVerb : String := "http://adlnet.gov/expapi/verbs/experienced"

/-- A nonempty statement list none of whose members carries a result.score:
the input on which aggregateScores divides by zero. -/
def exScoreless : List Statement :=
  [mkEvent experiencedVerb ("http://example.com/activity") 0]

/-- The C7 scenario input: 10 statements, 6 completion events on 6 distinct
activities, 8 distinct activities in total. -/
def exProgress : List Statement :=
  [mkEvent completedVerb ("a1") 100, mkEvent completedVerb ("a2") 90,
   mkEvent completedVerb ("a3") 80, mkEvent completedVerb ("a4") 70,
   mkEvent completedVerb ("a5") 60, mkEvent completedVerb ("a6") 50,
   mkEvent experiencedVerb ("a7") 40, mkEvent experiencedVerb ("a8") 30,
   mkEvent experiencedVerb ("a1") 20, mkEvent experiencedVerb ("a2") 10]

/-- The C2 scenario input: activity on calendar days 1, 2, 3 and 10. -/
def exStreak : List Statement :=
  [mkEvent experiencedVerb ("a") (1 * msPerDay), mkEvent experiencedVerb ("a") (2 * msPerDay),
   mkEvent experiencedVerb ("a") (3 * msPerDay), mkEvent experiencedVerb ("a") (10 * msPerDay)]

/-- Anomaly-detector input with exactly 5 perfect canonical scores. -/
def exFivePerfect : AnomalyData :=
  { scores := some { scores := List.replicate 5 { score := 100 } }, timeline := none }

/-- Anomaly-detector input with 6 perfect canonical scores. -/
def exSixPerfect : AnomalyData :=
  { scores := some { scores := List.replicate 6 { score := 100 } }, timeline := none }

/-- Two scored attempts on the same activity: 2 raw attempts, 1 canonical
record. -/
def exRepeatAttempts : List Statement :=
  [mkScored ("q1") 1 0, mkScored ("q1") 1 1000]

/-- Five statements of which exactly four carry a result (80 percent), all
at the current instant. -/
def exPartialResults : List Statement :=
  [mkScored ("q1") 1 0, mkScored ("q2") 1 0, mkScored ("q3") 1 0, mkScored ("q4") 1 0,
   mkEvent experiencedVerb ("a") 0]

/-- A single statement on calendar day 10, for exhibiting the clock
dependence of streak and freshness. -/
def exSingleDay : List Statement :=
  [mkEvent experiencedVerb ("a") (10 * msPerDay)]

theorem insertLe_perm {α : Type} (le : α → α → Bool) (x : α) (l : List α) :
    (insertLe le x l).Perm (x :: l) := by
  induction l with
  | nil => simp [insertLe]
  | cons y ys ih =>
    simp only [insertLe]
    split
    · exact (ih.cons y).trans (List.Perm.swap x y ys)
    · exact List.Perm.refl _

theorem stableSort_fold_perm {α : Type} (le : α → α → Bool) (l acc : List α) :
    (l.foldl (fun a x => insertLe le x a) acc).Perm (acc ++ l) := by
  induction l generalizing acc with
  | nil => simp
  | cons x xs ih =>
    simp only [List.foldl_cons]
    refine (ih (insertLe le x acc)).trans ?_
    refine (((insertLe_perm le x acc)).append_right xs).trans ?_
    exact List.perm_middle.symm.trans (List.Perm.refl _) |>.symm.symm

theorem stableSort_perm {α : Type} (le : α → α → Bool) (l : List α) :
    (stableSort le l).Perm l := by
  simpa [stableSort] using stableSort_fold_perm le l []

theorem stableSort_length {α : Type} (le : α → α → Bool) (l : List α) :
    (stableSort le l).length = l.length :=
  (stableSort_perm le l).length_eq

theorem sessionsAux_activities_sum (l : List ℤ) :
    ∀ cur : Session, ((sessionsAux cur l).map (fun s => s.activities)).sum = cur.activities + l.length := by
  induction l with
  | nil => intro cur; simp [sessionsAux]
  | cons t rest ih =>
    intro cur
    simp only [sessionsAux]
    split
    · rw [ih]; simp; omega
    · simp only [List.map_cons, List.sum_cons, ih]; simp; omega

theorem distStep_sum (d : ScoreDist) (s : ℤ) : distSum (distStep d s) = distSum d + 1 := by
  simp only [distStep, distSum]
  split_ifs <;> simp <;> omega

theorem distFold_sum (l : List ℤ) :
    ∀ d : ScoreDist, distSum (l.foldl distStep d) = distSum d + l.length := by
  induction l with
  | nil => intro d; simp
  | cons s rest ih =>
    intro d
    simp only [List.foldl_cons, ih, distStep_sum, List.length_cons]
    omega

theorem calculateScoreDistribution_sum (l : List ℤ) :
    distSum (calculateScoreDistribution l) = l.length := by
  rw [calculateScoreDistribution, distFold_sum]
  simp [distSum]

theorem jsRound_nonneg {q : ℚ} (h : 0 ≤ q) : 0 ≤ jsRound q := by
  unfold jsRound
  exact Int.le_floor.mpr (by push_cast; linarith)

theorem jsRound_le_100 {q : ℚ} (h : q ≤ 100) : jsRound q ≤ 100 := by
  unfold jsRound
  have : ⌊q + 1/2⌋ < 101 := Int.floor_lt.mpr (by push_cast; linarith)
  omega

theorem completedActivitySet_subset (stmts : List Statement) :
    completedActivitySet stmts ⊆ totalActivitySet stmts := by
  intro x hx
  simp only [completedActivitySet, List.mem_toFinset, List.mem_map, List.mem_filter] at hx
  obtain ⟨s, ⟨hs, _⟩, rfl⟩ := hx
  simp only [totalActivitySet, List.mem_toFinset, List.mem_map]
  exact ⟨s, hs, rfl⟩

theorem afterPT_mem {l r : List Char} (h : afterPT l = some r) : ∀ a ∈ r, a ∈ l := by
  induction l with
  | nil => simp [afterPT] at h
  | cons c tail ih =>
    cases tail with
    | nil => simp [afterPT] at h
    | cons c2 rest =>
      rw [afterPT] at h
      split at h
      · cases h
        intro a ha
        exact List.mem_cons_of_mem _ (List.mem_cons_of_mem _ ha)
      · intro a ha
        exact List.mem_cons_of_mem _ (ih h a ha)

theorem matchGroup_not_mem {c : Char} {l : List Char} (h : c ∉ l) :
    matchGroup c l = (none, l) := by
  rw [matchGroup]
  split
  · rfl
  · split
    · rename_i c2 rest2 heq
      have hmem : c2 ∈ l := by
        have hsub : (l.dropWhile Char.isDigit).Sublist l := List.dropWhile_sublist _
        exact hsub.mem (heq ▸ List.mem_cons_self c2 rest2)
      have : ¬ c2 = c := fun hc => h (hc ▸ hmem)
      simp [this]
    · rfl

theorem mem_activityAnomaliesOf {d : AnomalyData} {a : Anomaly}
    (h : a ∈ activityAnomaliesOf d) : a = spikeAnomaly := by
  unfold activityAnomaliesOf at h
  split at h
  · simp at h
  · dsimp only at h
    split at h <;> simp at h
    exact h

theorem scoreAnomaliesOf_cases (d : AnomalyData) :
    scoreAnomaliesOf d = [] ∨ scoreAnomaliesOf d = [suspiciousAnomaly] ∨
    scoreAnomaliesOf d = [improvementAnomaly] ∨
    scoreAnomaliesOf d = [suspiciousAnomaly, improvementAnomaly] := by
  unfold scoreAnomaliesOf
  split
  · exact Or.inl rfl
  · dsimp only
    split <;> split <;> simp

theorem foldl_max_all {v x : ℤ} {xs : List ℤ} (hx : x = v) (h : ∀ y ∈ xs, y = v) :
    xs.foldl max x = v := by
  induction xs generalizing x with
  | nil => simpa using hx
  | cons y ys ih =>
    have hy : y = v := h y (List.mem_cons_self y ys)
    exact ih (by simp [hx, hy]) (fun z hz => h z (List.mem_cons_of_mem y hz))

theorem foldl_min_all {v x : ℤ} {xs : List ℤ} (hx : x = v) (h : ∀ y ∈ xs, y = v) :
    xs.foldl min x = v := by
  induction xs generalizing x with
  | nil => simpa using hx
  | cons y ys ih =>
    have hy : y = v := h y (List.mem_cons_self y ys)
    exact ih (by simp [hx, hy]) (fun z hz => h z (List.mem_cons_of_mem y hz))

theorem filter_medium_activity (d : AnomalyData) :
    (activityAnomaliesOf d).filter (fun a => a.severity == Severity.medium) = [] := by
  rw [List.filter_eq_nil_iff]
  intro a ha
  rw [mem_activityAnomaliesOf ha]
  simp [spikeAnomaly]

theorem filter_high_activity (d : AnomalyData) :
    (activityAnomaliesOf d).filter (fun a => a.severity == Severity.high) = [] := by
  rw [List.filter_eq_nil_iff]
  intro a ha
  rw [mem_activityAnomaliesOf ha]
  simp [spikeAnomaly]

theorem calculateRiskLevel_ne_high {anomalies : List Anomaly}
    (h0 : (anomalies.filter (fun a => a.severity == Severity.high)).length = 0)
    (h1 : (anomalies.filter (fun a => a.severity == Severity.medium)).length ≤ 1) :
    calculateRiskLevel anomalies ≠ RiskLevel.high := by
  unfold calculateRiskLevel
  split
  · simp
  · dsimp only
    rw [h0]
    simp only [gt_iff_lt, lt_irrefl, if_false]
    split
    · omega
    · split <;> simp

theorem calculateRiskLevel_eq_medium {anomalies : List Anomaly}
    (h0 : (anomalies.filter (fun a => a.severity == Severity.high)).length = 0)
    (h1 : (anomalies.filter (fun a => a.severity == Severity.medium)).length = 1) :
    calculateRiskLevel anomalies = RiskLevel.medium := by
  unfold calculateRiskLevel
  split
  · rename_i he
    rw [List.isEmpty_iff] at he
    rw [he] at h1
    simp at h1
  · dsimp only
    rw [h0, h1]
    simp

/-- C10: over every input, detectAnomalies emits only medium-severity (at
most one, from the suspicious-scores rule) or low-severity anomalies, so
calculateRiskLevel never returns high on its output: the risk level is
always one of none, low, medium. -/
theorem c10_risk_never_high (data : AnomalyData) :
    (∀ a ∈ (detectAnomalies data).anomalies,
        a.severity = Severity.medium ∨ a.severity = Severity.low) ∧
    ((detectAnomalies data).anomalies.filter (fun a => a.severity == Severity.medium)).length ≤ 1 ∧
    (detectAnomalies data).riskLevel ≠ RiskLevel.high := by
  have hanom : (detectAnomalies data).anomalies = scoreAnomaliesOf data ++ activityAnomaliesOf data := rfl
  have hrisk : (detectAnomalies data).riskLevel =
      calculateRiskLevel (scoreAnomaliesOf data ++ activityAnomaliesOf data) := rfl
  have hmed : ((scoreAnomaliesOf data ++ activityAnomaliesOf data).filter
      (fun a => a.severity == Severity.medium)).length ≤ 1 := by
    rw [List.filter_append, List.length_append, filter_medium_activity]
    rcases scoreAnomaliesOf_cases data with h | h | h | h <;>
      rw [h] <;> simp [suspiciousAnomaly, improvementAnomaly]
  have hhigh : ((scoreAnomaliesOf data ++ activityAnomaliesOf data).filter
      (fun a => a.severity == Severity.high)).length = 0 := by
    rw [List.filter_append, List.length_append, filter_high_activity]
    rcases scoreAnomaliesOf_cases data with h | h | h | h <;>
      rw [h] <;> simp [suspiciousAnomaly, improvementAnomaly]
  refine ⟨?_, ?_, ?_⟩
  · intro a ha
    rw [hanom] at ha
    rcases List.mem_append.mp ha with hmem | hmem
    · rcases scoreAnomaliesOf_cases data with h | h | h | h <;> rw [h] at hmem <;> simp at hmem
      · exact Or.inl (hmem ▸ rfl)
      · exact Or.inr (hmem ▸ rfl)
      · rcases hmem with hmem | hmem
        · exact Or.inl (hmem ▸ rfl)
        · exact Or.inr (hmem ▸ rfl)
    · exact Or.inr (mem_activityAnomaliesOf hmem ▸ rfl)
  · rw [hanom]; exact hmed
  · rw [hrisk]; exact calculateRiskLevel_ne_high hhigh hmed

/-- C3 counterexample: an aggregated summary with exactly 5 canonical
scores all equal to 100 triggers no anomaly at all (the source requires
strictly more than 5), and the risk level is none, not medium. -/
theorem c3_counterexample_five_perfect :
    (detectAnomalies exFivePerfect).anomalies = [] ∧
    (detectAnomalies exFivePerfect).riskLevel = RiskLevel.none := by
  constructor <;> rfl

theorem scoreAnomaliesOf_perfect {data : AnomalyData} {sf : ScoresField}
    (hsc : data.scores = some sf) (hlen : sf.scores.length > 5)
    (hall : ∀ r ∈ sf.scores, r.score = 100) :
    scoreAnomaliesOf data = [suspiciousAnomaly] := by
  unfold scoreAnomaliesOf
  rw [hsc]
  dsimp only
  have hne : sf.scores.map (fun s => s.score) ≠ [] := by
    intro h
    rw [← List.length_eq_zero, List.length_map] at h
    omega
  have hall2 : ∀ x ∈ sf.scores.map (fun s => s.score), x = (100 : ℤ) := by
    intro x hx
    obtain ⟨r, hr, rfl⟩ := List.mem_map.mp hx
    exact hall r hr
  have h1 : (sf.scores.map (fun s => s.score)).length > 5 ∧
      ((sf.scores.map (fun s => s.score)).all fun s => s == 100) = true := by
    refine ⟨by simpa using hlen, ?_⟩
    rw [List.all_eq_true]
    intro x hx
    simpa using hall2 x hx
  rw [if_pos h1]
  have hmax : listMaxZ (sf.scores.map (fun s => s.score)) = 100 := by
    rcases hm : sf.scores.map (fun s => s.score) with _ | ⟨x, xs⟩
    · exact absurd hm hne
    · rw [hm, listMaxZ]
      exact foldl_max_all (hall2 x (hm ▸ List.mem_cons_self x xs))
        (fun y hy => hall2 y (hm ▸ List.mem_cons_of_mem x hy))
  have hmin : listMinZ (sf.scores.map (fun s => s.score)) = 100 := by
    rcases hm : sf.scores.map (fun s => s.score) with _ | ⟨x, xs⟩
    · exact absurd hm hne
    · rw [hm, listMinZ]
      exact foldl_min_all (hall2 x (hm ▸ List.mem_cons_self x xs))
        (fun y hy => hall2 y (hm ▸ List.mem_cons_of_mem x hy))
  rw [if_neg]
  · simp
  · rw [hmax, hmin]
    simp

/-- C3 amended: with strictly more than 5 canonical scores all equal to
100 (the source threshold is more than 5, not at least 5), detectAnomalies
reports the medium-severity suspicious-scores anomaly, and since no rule
can add another medium or any high anomaly, the risk level is medium. -/
theorem c3_more_than_five_perfect {data : AnomalyData} {sf : ScoresField}
    (hsc : data.scores = some sf) (hlen : sf.scores.length > 5)
    (hall : ∀ r ∈ sf.scores, r.score = 100) :
    suspiciousAnomaly ∈ (detectAnomalies data).anomalies ∧
    (detectAnomalies data).riskLevel = RiskLevel.medium := by
  have hA := scoreAnomaliesOf_perfect hsc hlen hall
  have hanom : (detectAnomalies data).anomalies = scoreAnomaliesOf data ++ activityAnomaliesOf data := rfl
  have hrisk : (detectAnomalies data).riskLevel =
      calculateRiskLevel (scoreAnomaliesOf data ++ activityAnomaliesOf data) := rfl
  constructor
  · rw [hanom, hA]
    exact List.mem_append_left _ (List.mem_cons_self _ _)
  · rw [hrisk]
    refine calculateRiskLevel_eq_medium ?_ ?_
    · rw [List.filter_append, List.length_append, filter_high_activity, hA]
      simp [suspiciousAnomaly]
    · rw [List.filter_append, List.length_append, filter_medium_activity, hA]
      simp [suspiciousAnomaly]

/-- C3 witness: the amended theorem applied to 6 perfect scores. -/
theorem c3_more_than_five_perfect_witness :
    suspiciousAnomaly ∈ (detectAnomalies exSixPerfect).anomalies ∧
    (detectAnomalies exSixPerfect).riskLevel = RiskLevel.medium :=
  @c3_more_than_five_perfect exSixPerfect { scores := List.replicate 6 { score := 100 } }
    rfl (by decide) (by decide)

/-- C2 counterexample: with activity on days 1, 2, 3 and 10 and today = day
11 (the day after the last activity day), calculateLearningStreak returns
currentStreak = 1, not 0: day 10 counts as yesterday, so the walk-back
branch runs and counts the one-day run consisting of day 10 itself. -/
theorem c2_counterexample_current_streak :
    calculateLearningStreak exStreak 11 =
      { current := 1, longest := 3, totalDays := 4 } ∧
    (calculateLearningStreak exStreak 11).current ≠ 0 := by
  constructor <;> decide

theorem activityDays_nil : activityDays [] = [] := rfl

/-- C2 amended: for a statement set active on three consecutive days and
then, after a gap of more than one day, on a final day D, with today the
day after D: longestStreak is 3 as the claim states, but currentStreak is
1, not 0 — D is yesterday relative to today, so the source counts the
one-day run ending at D. -/
theorem c2_streak_day_after (stmts : List Statement) (a D today : ℤ)
    (hdays : activityDays stmts = [a, a + 1, a + 2, D])
    (hgap : D - (a + 2) ≥ 2) (htoday : today = D + 1) :
    calculateLearningStreak stmts today = { current := 1, longest := 3, totalDays := 4 } := by
  have hne : ¬ stmts.isEmpty := by
    intro h
    rw [List.isEmpty_iff] at h
    rw [h, activityDays_nil] at hdays
    exact absurd hdays (by simp)
  rw [calculateLearningStreak, if_neg hne, hdays]
  have h1 : a + 1 - a = 1 := by ring
  have h2 : a + 2 - (a + 1) = 1 := by ring
  have h3 : ¬ (D - (a + 2) = 1) := by omega
  have hlongest : longestRun [a, a + 1, a + 2, D] = 3 := by
    rw [longestRun, longestAux, if_pos h1, longestAux, if_pos h2, longestAux, if_neg h3,
      longestAux]
    omega
  have hrev : ([a, a + 1, a + 2, D] : List ℤ).reverse = [D, a + 2, a + 1, a] := by
    simp
  have hcurrent : currentStreakOf [a, a + 1, a + 2, D] today = 1 := by
    rw [currentStreakOf, hrev]
    dsimp only
    rw [if_pos (by omega : today - D ≤ 1), backCount, if_neg h3]
  dsimp only
  rw [hlongest, hcurrent]
  rfl

/-- C2 witness: the amended theorem applied to days 1, 2, 3, 10 with today
= 11. -/
theorem c2_streak_day_after_witness :
    calculateLearningStreak exStreak 11 = { current := 1, longest := 3, totalDays := 4 } :=
  c2_streak_day_after exStreak 1 10 11 (by decide) (by decide) (by decide)

theorem freshness_single_now :
    (assessDataQuality exSingleDay (10 * msPerDay)).freshness = 100 := by
  show (freshnessOf exSingleDay (10 * msPerDay)).1 = 100
  rw [freshnessOf]
  norm_num [exSingleDay, mkEvent, listMaxZ, msPerDay]

theorem freshness_single_stale :
    (assessDataQuality exSingleDay (30 * msPerDay)).freshness = 0 := by
  show (freshnessOf exSingleDay (30 * msPerDay)).1 = 0
  rw [freshnessOf]
  norm_num [exSingleDay, mkEvent, listMaxZ, msPerDay]

/-- C6 counterexample: the source reads the ambient clock (new Date())
inside calculateLearningStreak and assessDataQuality, so for one and the
same statement snapshot the outputs differ at different invocation times:
with a single statement on day 10, the streak is 1 when the clock reads day
10 and 0 when it reads day 13, and the freshness is 100 at the instant of
the activity but 0 twenty days later. This refutes the claim that no
algorithm reads the ambient clock internally and that the output is a
function of the snapshot plus an explicitly passed parameter (the source
signatures take no such parameter). -/
theorem c6_ambient_clock_dependence :
    calculateLearningStreak exSingleDay 10 ≠ calculateLearningStreak exSingleDay 13 ∧
    assessDataQuality exSingleDay (10 * msPerDay) ≠ assessDataQuality exSingleDay (30 * msPerDay) := by
  constructor
  · decide
  · intro h
    have hf := congrArg DataQuality.freshness h
    rw [freshness_single_now, freshness_single_stale] at hf
    norm_num at hf

/-- C6 amended: each aggregation function is deterministic in its snapshot
and the clock reading, and only the clock-relative outputs (currentStreak,
freshness, and hence the quality score) depend on the clock: longestStreak,
totalActiveDays and completeness are invariant under a change of the
current time. (The claim fails only in that the source obtains the time
from the ambient clock rather than an explicit parameter.) -/
theorem c6_clock_invariant_fields (stmts : List Statement) (n1 n2 : ℤ) :
    (calculateLearningStreak stmts n1).longest = (calculateLearningStreak stmts n2).longest ∧
    (calculateLearningStreak stmts n1).totalDays = (calculateLearningStreak stmts n2).totalDays ∧
    (assessDataQuality stmts n1).completeness = (assessDataQuality stmts n2).completeness := by
  refine ⟨?_, ?_, rfl⟩ <;>
    by_cases h : stmts.isEmpty <;> simp [calculateLearningStreak, h]

/-- C4 counterexample: with 5 statements of which 4 carry a result (80
percent) and the latest activity at the current instant, the source keeps
completeness at its initial 100 (the measured percentage only replaces 100
when it is strictly below 80), while the claim says completeness equals the
percentage of statements carrying a result, here 80. -/
theorem c4_completeness_not_percentage :
    (assessDataQuality exPartialResults 0).completeness = 100 ∧
    specResultCompleteness exPartialResults = 80 ∧ (100 : ℚ) ≠ 80 := by
  have hlen : ((exPartialResults.filter (fun s => s.result.isSome)).length : ℚ) = 4 := by
    norm_num [exPartialResults, mkScored, mkEvent]
  have htot : ((exPartialResults.length : ℚ)) = 5 := by
    norm_num [exPartialResults]
  refine ⟨?_, ?_, by norm_num⟩
  · show (completenessOf exPartialResults).1 = 100
    rw [completenessOf]
    rw [hlen, htot]
    norm_num [exPartialResults]
  · rw [specResultCompleteness, hlen, htot]
    norm_num [exPartialResults]

/-- C4 amended: completeness is the percentage of statements carrying a
result only when that percentage is below 80, and 100 otherwise; freshness
follows the claimed formula exactly (100 within 7 days of the latest
activity, then minus 10 points per fractional day beyond 7, floored at 0,
and 0 with no statements), always lying in [0, 100]; and the overall score
is the rounded average of completeness and freshness. -/
theorem c4_quality_amended (stmts : List Statement) (now : ℤ) :
    (assessDataQuality stmts now).completeness =
      (if specResultCompleteness stmts < 80 then specResultCompleteness stmts else 100) ∧
    (assessDataQuality stmts now).freshness = specFreshness stmts now ∧
    (assessDataQuality stmts now).score =
      jsRound (((assessDataQuality stmts now).completeness +
        (assessDataQuality stmts now).freshness) / 2) ∧
    0 ≤ (assessDataQuality stmts now).freshness ∧
    (assessDataQuality stmts now).freshness ≤ 100 := by
  refine ⟨?_, ?_, rfl, ?_, ?_⟩
  · show (completenessOf stmts).1 = _
    rw [completenessOf, specResultCompleteness]
    split_ifs <;> rfl
  · show (freshnessOf stmts now).1 = specFreshness stmts now
    rw [freshnessOf, specFreshness]
    dsimp only
    split_ifs <;> rfl
  · show (0 : ℚ) ≤ (freshnessOf stmts now).1
    rw [freshnessOf]
    dsimp only
    split_ifs
    · norm_num
    · simp only
      exact le_max_left (0 : ℚ) _
    · norm_num
  · show (freshnessOf stmts now).1 ≤ 100
    rw [freshnessOf]
    dsimp only
    split_ifs with h1 h2
    · norm_num
    · simp only
      refine max_le (by norm_num) ?_
      linarith
    · norm_num


theorem stableSort_pair (s1 s2 : Statement) (h : s1.timestamp ≤ s2.timestamp) :
    stableSort (fun a b => decide (a.timestamp ≤ b.timestamp)) [s1, s2] = [s1, s2] := by
  simp [stableSort, insertLe, h]

/-- C8: session clustering. Two statements exactly 3600000 ms apart form
one session (boundary inclusive) with 2 activities and 3600 s duration;
3600001 ms apart they form two singleton sessions; a single statement
yields one session with 1 activity and duration 0; and for every nonempty
input the session activity counts sum to the number of statements, so the
final open session is always closed and included. -/
theorem c8_sessions :
    (∀ t : ℤ, calculateStudySessions [mkEvent experiencedVerb ("a") t,
        mkEvent experiencedVerb ("a") (t + 3600000)] =
      [{ start := t, endTime := t + 3600000, activities := 2, duration := 3600 }]) ∧
    (∀ t : ℤ, calculateStudySessions [mkEvent experiencedVerb ("a") t,
        mkEvent experiencedVerb ("a") (t + 3600001)] =
      [{ start := t, endTime := t, activities := 1, duration := 0 },
       { start := t + 3600001, endTime := t + 3600001, activities := 1, duration := 0 }]) ∧
    (∀ t : ℤ, calculateStudySessions [mkEvent experiencedVerb ("a") t] =
      [{ start := t, endTime := t, activities := 1, duration := 0 }]) ∧
    (∀ stmts : List Statement, stmts ≠ [] →
      ((calculateStudySessions stmts).map (fun s => s.activities)).sum = stmts.length) := by
  refine ⟨?_, ?_, ?_, ?_⟩
  · intro t
    rw [calculateStudySessions,
      stableSort_pair _ _ (by simp [mkEvent])]
    simp only [List.map_cons, List.map_nil, mkEvent]
    rw [sessionsAux]
    simp only [Session.mk.injEq]
    norm_num [sessionsAux]
  · intro t
    rw [calculateStudySessions,
      stableSort_pair _ _ (by simp [mkEvent])]
    simp only [List.map_cons, List.map_nil, mkEvent]
    rw [sessionsAux]
    norm_num [sessionsAux]
  · intro t
    rw [calculateStudySessions]
    simp only [stableSort, List.foldl, insertLe, List.map_cons, List.map_nil, mkEvent]
    norm_num [sessionsAux]
  · intro stmts hne
    rw [calculateStudySessions]
    have hlen : ((stableSort (fun a b => decide (a.timestamp ≤ b.timestamp)) stmts).map
        (fun s => s.timestamp)).length = stmts.length := by
      rw [List.length_map, stableSort_length]
    rcases hm : (stableSort (fun a b => decide (a.timestamp ≤ b.timestamp)) stmts).map
        (fun s => s.timestamp) with _ | ⟨t, rest⟩
    · rw [hm] at hlen
      exact absurd (List.length_eq_zero.mp hlen.symm) hne
    · rw [hm] at hlen
      rw [hm]
      dsimp only
      rw [sessionsAux_activities_sum]
      simp only [List.length_cons] at hlen
      dsimp only
      omega

/-- C8 witness: the conservation clause applied to the four-statement
input of the streak scenario. -/
theorem c8_sessions_witness :
    ((calculateStudySessions exStreak).map (fun s => s.activities)).sum = exStreak.length :=
  c8_sessions.2.2.2 exStreak (by decide)

/-- C1: aggregateScores on the empty list returns the all-zero summary,
but on a nonempty list in which no statement carries result.score the
guard is not taken and the function divides by zero: average and passRate
are NaN, highest is -Infinity and lowest is Infinity, refuting the claim
that every score-free input yields all-zero numeric fields and no
NaN/infinite values (scores list, totalAttempts and trend do match the
claim). -/
theorem c1_scoreless_nonempty_nan :
    aggregateScores exScoreless =
      { scores := [], average := JSNum.nan, highest := JSNum.neginf, lowest := JSNum.posinf,
        totalAttempts := 0, passRate := JSNum.nan, trend := Trend.stable,
        distribution := some { gradeA := 0, gradeB := 0, gradeC := 0, gradeD := 0, gradeF := 0 } } ∧
    JSNum.nan ≠ JSNum.num 0 ∧ JSNum.neginf ≠ JSNum.num 0 ∧ JSNum.posinf ≠ JSNum.num 0 ∧
    aggregateScores [] =
      { scores := [], average := JSNum.num 0, highest := JSNum.num 0, lowest := JSNum.num 0,
        totalAttempts := 0, passRate := JSNum.num 0, trend := Trend.stable,
        distribution := none } := by
  refine ⟨?_, by decide, by decide, by decide, rfl⟩
  have h2 : processedScores exScoreless = [] := rfl
  have h1 : scoredEntries exScoreless = [] := rfl
  rw [aggregateScores, if_neg (by decide)]
  simp only [h1, h2, List.map_nil, List.length_nil, List.filter_nil, List.sum_nil,
    List.map_cons]
  norm_num [JSNum.div, JSNum.round, JSNum.mul, listMaxJS, listMinJS, calculateScoreTrend,
    calculateScoreDistribution, stableSort]

theorem distFold_counts (l : List ℤ) : ∀ acc : ScoreDist,
    l.foldl distStep acc =
      { gradeA := acc.gradeA + l.countP (fun s => decide (s ≥ 90)),
        gradeB := acc.gradeB + l.countP (fun s => decide (s < 90 ∧ s ≥ 80)),
        gradeC := acc.gradeC + l.countP (fun s => decide (s < 80 ∧ s ≥ 70)),
        gradeD := acc.gradeD + l.countP (fun s => decide (s < 70 ∧ s ≥ 60)),
        gradeF := acc.gradeF + l.countP (fun s => decide (s < 60)) } := by
  induction l with
  | nil => intro acc; simp
  | cons s rest ih =>
    intro acc
    rw [List.foldl_cons, ih]
    simp only [List.countP_cons, distStep, decide_eq_true_eq]
    split_ifs <;> simp [ScoreDist.mk.injEq] <;> omega

theorem calculateScoreDistribution_counts (l : List ℤ) :
    calculateScoreDistribution l =
      { gradeA := l.countP (fun s => decide (s ≥ 90)),
        gradeB := l.countP (fun s => decide (s < 90 ∧ s ≥ 80)),
        gradeC := l.countP (fun s => decide (s < 80 ∧ s ≥ 70)),
        gradeD := l.countP (fun s => decide (s < 70 ∧ s ≥ 60)),
        gradeF := l.countP (fun s => decide (s < 60)) } := by
  rw [calculateScoreDistribution, distFold_counts]
  simp

/-- C5 counterexample: two scored attempts on one and the same activity
give totalAttempts = 2 raw scored attempts, but the distribution buckets
only the single canonical (latest per activity) record, so its counts sum
to 1, not 2: the distribution is deduplicated, contrary to the claim. -/
theorem c5_counterexample_deduplicated :
    (aggregateScores exRepeatAttempts).totalAttempts = 2 ∧
    distSumOpt (aggregateScores exRepeatAttempts).distribution = 1 ∧ (1 : ℕ) ≠ 2 := by
  have hjs : jsRound ((100 : ℚ)) = 100 := by rw [jsRound]; norm_num
  have he : scoredEntries exRepeatAttempts =
      [{ activity := "Unknown Assessment", activityId := "q1", score := 100, rawScore := none,
         maxScore := none, success := true, timestamp := 0 },
       { activity := "Unknown Assessment", activityId := "q1", score := 100, rawScore := none,
         maxScore := none, success := true, timestamp := 1000 }] := by
    simp [scoredEntries, exRepeatAttempts, mkScored, toRawScore, hjs, jsOr]
  refine ⟨?_, ?_, by decide⟩
  · show (scoredEntries exRepeatAttempts).length = 2
    rw [he]
    rfl
  · show distSumOpt (some (calculateScoreDistribution
        ((processedScores exRepeatAttempts).map (fun s => s.entry.score)))) = 1
    rw [distSumOpt, processedScores, groupsOf, he]
    decide

/-- C5 amended: for every nonempty input, the distribution exists and
buckets the canonical per-activity scores (the latest attempt of each
scored activity, i.e. exactly the scores of the returned scores list, not
the raw undeduplicated attempts) into A at 90 and above, B in [80,90), C in
[70,80), D in [60,70) and F below 60, so the counts over all grades sum to
the number of canonical records. -/
theorem c5_distribution_over_canonical (stmts : List Statement) (hne : stmts ≠ []) :
    ∃ d : ScoreDist, (aggregateScores stmts).distribution = some d ∧
      distSum d = (aggregateScores stmts).scores.length ∧
      d.gradeA = ((aggregateScores stmts).scores.map (fun s => s.entry.score)).countP
        (fun s => decide (s ≥ 90)) ∧
      d.gradeB = ((aggregateScores stmts).scores.map (fun s => s.entry.score)).countP
        (fun s => decide (s < 90 ∧ s ≥ 80)) ∧
      d.gradeC = ((aggregateScores stmts).scores.map (fun s => s.entry.score)).countP
        (fun s => decide (s < 80 ∧ s ≥ 70)) ∧
      d.gradeD = ((aggregateScores stmts).scores.map (fun s => s.entry.score)).countP
        (fun s => decide (s < 70 ∧ s ≥ 60)) ∧
      d.gradeF = ((aggregateScores stmts).scores.map (fun s => s.entry.score)).countP
        (fun s => decide (s < 60)) := by
  have hemp : ¬ stmts.isEmpty := by simpa [List.isEmpty_iff] using hne
  have hdist : (aggregateScores stmts).distribution =
      some (calculateScoreDistribution ((processedScores stmts).map (fun s => s.entry.score))) := by
    rw [aggregateScores, if_neg hemp]
  have hscores : (aggregateScores stmts).scores =
      stableSort (fun a b => decide (b.entry.timestamp ≤ a.entry.timestamp))
        (processedScores stmts) := by
    rw [aggregateScores, if_neg hemp]
  have hperm : ((aggregateScores stmts).scores.map (fun s => s.entry.score)).Perm
      ((processedScores stmts).map (fun s => s.entry.score)) := by
    rw [hscores]
    exact (stableSort_perm _ _).map _
  refine ⟨calculateScoreDistribution ((processedScores stmts).map (fun s => s.entry.score)),
    hdist, ?_, ?_, ?_, ?_, ?_, ?_⟩
  · rw [calculateScoreDistribution_sum, hscores, List.length_map, stableSort_length]
  · rw [calculateScoreDistribution_counts, hperm.countP_eq]
  · rw [calculateScoreDistribution_counts, hperm.countP_eq]
  · rw [calculateScoreDistribution_counts, hperm.countP_eq]
  · rw [calculateScoreDistribution_counts, hperm.countP_eq]
  · rw [calculateScoreDistribution_counts, hperm.countP_eq]

/-- C5 witness: the amended theorem at the repeated-attempts input. -/
theorem c5_distribution_over_canonical_witness :
    ∃ d : ScoreDist, (aggregateScores exRepeatAttempts).distribution = some d ∧
      distSum d = (aggregateScores exRepeatAttempts).scores.length ∧
      d.gradeA = ((aggregateScores exRepeatAttempts).scores.map (fun s => s.entry.score)).countP
        (fun s => decide (s ≥ 90)) ∧
      d.gradeB = ((aggregateScores exRepeatAttempts).scores.map (fun s => s.entry.score)).countP
        (fun s => decide (s < 90 ∧ s ≥ 80)) ∧
      d.gradeC = ((aggregateScores exRepeatAttempts).scores.map (fun s => s.entry.score)).countP
        (fun s => decide (s < 80 ∧ s ≥ 70)) ∧
      d.gradeD = ((aggregateScores exRepeatAttempts).scores.map (fun s => s.entry.score)).countP
        (fun s => decide (s < 70 ∧ s ≥ 60)) ∧
      d.gradeF = ((aggregateScores exRepeatAttempts).scores.map (fun s => s.entry.score)).countP
        (fun s => decide (s < 60)) :=
  c5_distribution_over_canonical exRepeatAttempts (by decide)

/-- C7: calculateProgress satisfies percentage = round(completed/total
times 100) with 0 when total = 0, percentage always within [0, 100],
completed + remaining = total; and the scenario of 10 statements with 6
completion events over 8 distinct activities yields completed 6, total 8,
percentage 75, remaining 2. -/
theorem c7_progress :
    (∀ stmts : List Statement,
      ((calculateProgress stmts).total > 0 →
        (calculateProgress stmts).percentage =
          jsRound (((calculateProgress stmts).completed : ℚ) /
            ((calculateProgress stmts).total : ℚ) * 100)) ∧
      ((calculateProgress stmts).total = 0 → (calculateProgress stmts).percentage = 0) ∧
      0 ≤ (calculateProgress stmts).percentage ∧
      (calculateProgress stmts).percentage ≤ 100 ∧
      ((calculateProgress stmts).completed : ℤ) + (calculateProgress stmts).remaining =
        ((calculateProgress stmts).total : ℤ)) ∧
    calculateProgress exProgress =
      { completed := 6, total := 8, percentage := 75, remaining := 2,
        moduleCompletions := [], lastActivity := some 100 } := by
  constructor
  · intro stmts
    have hsub : (completedActivitySet stmts).card ≤ (totalActivitySet stmts).card :=
      Finset.card_le_card (completedActivitySet_subset stmts)
    have hcompleted : (calculateProgress stmts).completed = (completedActivitySet stmts).card := rfl
    have htotal : (calculateProgress stmts).total = (totalActivitySet stmts).card := rfl
    have hpct : (calculateProgress stmts).percentage =
        (if (totalActivitySet stmts).card > 0 then
          jsRound (((completedActivitySet stmts).card : ℚ) /
            ((totalActivitySet stmts).card : ℚ) * 100) else 0) := rfl
    have hrem : (calculateProgress stmts).remaining =
        ((totalActivitySet stmts).card : ℤ) - ((completedActivitySet stmts).card : ℤ) := rfl
    refine ⟨?_, ?_, ?_, ?_, ?_⟩
    · intro ht
      rw [hpct, hcompleted, htotal, if_pos (htotal ▸ ht)]
    · intro ht
      rw [htotal] at ht
      rw [hpct, if_neg (by omega : ¬ (totalActivitySet stmts).card > 0)]
    · rw [hpct]
      split_ifs with ht
      · exact jsRound_nonneg (by positivity)
      · exact le_refl 0
    · rw [hpct]
      split_ifs with ht
      · refine jsRound_le_100 ?_
        have htq : (0 : ℚ) < ((totalActivitySet stmts).card : ℚ) := by exact_mod_cast ht
        have hdiv : ((completedActivitySet stmts).card : ℚ) /
            ((totalActivitySet stmts).card : ℚ) ≤ 1 := by
          rw [div_le_one htq]
          exact_mod_cast hsub
        nlinarith
      · norm_num
    · rw [hcompleted, hrem, htotal]
      ring
  · have hc : (completedActivitySet exProgress).card = 6 := by decide
    have ht : (totalActivitySet exProgress).card = 8 := by decide
    have hm : moduleCompletionsOf exProgress = [] := by decide
    rw [calculateProgress]
    rw [hc, ht, hm]
    rw [if_pos (by omega : 8 > 0)]
    simp only [stableSort, List.foldl, ProgressSummary.mk.injEq]
    norm_num [jsRound]
    exact ⟨_, rfl, rfl⟩

/-- C7 witness: the percentage formula instantiated at the scenario input,
with its positivity hypothesis discharged. -/
theorem c7_progress_witness :
    ((calculateProgress exProgress).total > 0 ∧
      (calculateProgress exProgress).percentage =
        jsRound (((calculateProgress exProgress).completed : ℚ) /
          ((calculateProgress exProgress).total : ℚ) * 100)) ∧
    ((calculateProgress ([] : List Statement)).total = 0 ∧
      (calculateProgress ([] : List Statement)).percentage = 0) :=
  ⟨⟨by decide, (c7_progress.1 exProgress).1 (by decide)⟩,
   ⟨by decide, (c7_progress.1 ([] : List Statement)).2.1 (by decide)⟩⟩

/-- C9: parseDuration is total with a natural-number result (hence never
negative and never an error); any string containing none of the designator
letters H, M, S parses to 0; and on designator-bearing duration strings it
returns hours times 3600 plus minutes times 60 plus seconds. -/
theorem c9_parse_duration :
    (∀ s : String, (∀ c ∈ s.data, c ≠ ('H') ∧ c ≠ ('M') ∧ c ≠ ('S')) → parseDuration s = 0) ∧
    parseDuration ("PT2H30M45S") = 2 * 3600 + 30 * 60 + 45 ∧
    parseDuration ("PT90S") = 90 ∧
    parseDuration ("PT1H") = 3600 ∧
    parseDuration ("") = 0 := by
  refine ⟨?_, by decide, by decide, by decide, rfl⟩
  intro s h
  rw [parseDuration]
  cases hpt : afterPT s.data with
  | none => rfl
  | some rest =>
    dsimp only
    have hsub := afterPT_mem hpt
    have hH : ('H') ∉ rest := fun hmem => (h _ (hsub _ hmem)).1 rfl
    have hM : ('M') ∉ rest := fun hmem => (h _ (hsub _ hmem)).2.1 rfl
    have hS : ('S') ∉ rest := fun hmem => (h _ (hsub _ hmem)).2.2 rfl
    rw [matchGroup_not_mem hH]
    dsimp only
    rw [matchGroup_not_mem hM]
    dsimp only
    rw [matchGroup_not_mem hS]
    rfl

/-- C9 witness: the designator-free clause applied to a concrete string
with no H, M or S. -/
theorem c9_parse_duration_witness : parseDuration ("2 hours 30 minutes") = 0 :=
  c9_parse_duration.1 ("2 hours 30 minutes") (by decide)


/-- C10 witness: the theorem at the six-perfect-scores input, with the
membership hypothesis of its first clause discharged at the emitted
suspicious-scores anomaly. -/
theorem c10_risk_never_high_witness :
    (suspiciousAnomaly.severity = Severity.medium ∨ suspiciousAnomaly.severity = Severity.low) ∧
    (detectAnomalies exSixPerfect).riskLevel ≠ RiskLevel.high :=
  ⟨(c10_risk_never_high exSixPerfect).1 suspiciousAnomaly (by decide),
   (c10_risk_never_high exSixPerfect).2.2⟩
